import Mathlib

/-
Verification of the self-care reminder HTTP service (server.js).

The service has five API routes:
  GET    /api/suggestions      : one outbound AI call with a fixed prompt
  GET    /api/reminders        : SELECT * FROM reminders ORDER BY scheduled_time DESC
  POST   /api/reminders        : INSERT INTO reminders (activity, scheduled_time)
  DELETE /api/reminders/:id    : DELETE FROM reminders WHERE id = ?
  POST   /api/chat             : one outbound AI call, prompt chosen by a
                                 substring test on the lowercased message

The SQLite table is
  CREATE TABLE reminders (
    id INTEGER PRIMARY KEY AUTOINCREMENT,
    activity TEXT NOT NULL,
    scheduled_time DATETIME NOT NULL,
    completed BOOLEAN DEFAULT 0 )
so ids are assigned by an ever-increasing sequence counter and never reused,
activity and scheduled_time are NOT NULL, and completed is stored as the
integer 0.  The store below embeds this table as a list of rows plus the
AUTOINCREMENT counter; outbound AI calls are embedded as a function argument
(the model oracle) and the list of prompts actually sent.
-/

namespace SelfCareApp

/-- A row of the reminders table.  completed is kept as the stored integer
(SQLite stores the BOOLEAN DEFAULT 0 literally as 0). -/
structure Reminder where
  id : Nat
  activity : String
  scheduled_time : String
  completed : Nat
deriving DecidableEq

/-- The persistent state: the rows of the reminders table together with the
AUTOINCREMENT sequence counter (the next id to be assigned; SQLite starts
at 1 and never decreases it, even on delete). -/
structure Store where
  rows : List Reminder
  nextId : Nat
deriving DecidableEq

/-- The store at process start: empty table, first id will be 1. -/
def initialStore : Store := { rows := [], nextId := 1 }

/-- JSON response bodies the handlers can produce. -/
inductive Body where
  | rowsB : List Reminder → Body
  | idB : Nat → Body
  | msgB : String → Body
  | errB : String → Body
  | suggB : String → Body
  | replyB : String → Body
deriving DecidableEq

/-- An HTTP response: status code and JSON body. -/
structure Resp where
  status : Nat
  body : Body
deriving DecidableEq

/-- Lexicographic order on code-point sequences, which agrees with the byte
order SQLite uses to compare TEXT values, since UTF-8 preserves code-point
order. -/
def leChars : List Char → List Char → Bool
  | [], _ => true
  | _ :: _, [] => false
  | a :: as, b :: bs =>
    if a.toNat < b.toNat then true
    else if b.toNat < a.toNat then false
    else leChars as bs

/-- Comparison used by ORDER BY scheduled_time DESC: row a may come before
row b when the time of b is at most the time of a. -/
def timeDesc (a b : Reminder) : Bool :=
  leChars b.scheduled_time.data a.scheduled_time.data

/-- Inserting a row into a list already ordered by timeDesc. -/
def insertSorted (r : Reminder) : List Reminder → List Reminder
  | [] => [r]
  | x :: xs => if timeDesc r x then r :: x :: xs else x :: insertSorted r xs

/-- Sorting rows by scheduled_time descending (the relational engine does
not specify its algorithm; any ordering satisfying ORDER BY is a faithful
model). -/
def sortRows : List Reminder → List Reminder
  | [] => []
  | x :: xs => insertSorted x (sortRows xs)

/-- SELECT * FROM reminders ORDER BY scheduled_time DESC. -/
def listOp (s : Store) : List Reminder :=
  sortRows s.rows

/-- INSERT INTO reminders (activity, scheduled_time) VALUES (?, ?):
appends a fresh row with the next AUTOINCREMENT id and completed 0,
and returns the assigned id (this.lastID). -/
def insertOp (s : Store) (a t : String) : Store × Nat :=
  ({ rows := s.rows ++ [⟨s.nextId, a, t, 0⟩], nextId := s.nextId + 1 }, s.nextId)

/-- DELETE FROM reminders WHERE id = ?: removes the rows carrying the id
(at most one, since id is the primary key); the sequence counter is
untouched. -/
def deleteOp (s : Store) (i : Nat) : Store :=
  { rows := s.rows.filter (fun r => r.id != i), nextId := s.nextId }

/-- GET /api/reminders.  dbErr is the storage-failure oracle: some m means
the query failed with err.message = m.  On failure the handler sends
status 500 with err.message as the error body; on success, status 200
with the ordered rows. -/
def remindersGet (s : Store) (dbErr : Option String) : Resp :=
  match dbErr with
  | some m => ⟨500, .errB m⟩
  | none => ⟨200, .rowsB (listOp s)⟩

/-- POST /api/reminders.  The two body fields are optional (absent fields
destructure to undefined and are bound as NULL, so the NOT NULL constraint
rejects them with a constraint error message).  On success the handler
sends the newly assigned id. -/
def remindersPost (s : Store) (activity scheduled_time : Option String)
    (dbErr : Option String) : Store × Resp :=
  match dbErr with
  | some m => (s, ⟨500, .errB m⟩)
  | none =>
    match activity, scheduled_time with
    | some a, some t =>
      let p := insertOp s a t
      (p.1, ⟨200, .idB p.2⟩)
    | none, _ =>
      (s, ⟨500, .errB "SQLITE_CONSTRAINT: NOT NULL constraint failed: reminders.activity"⟩)
    | some _, none =>
      (s, ⟨500, .errB "SQLITE_CONSTRAINT: NOT NULL constraint failed: reminders.scheduled_time"⟩)

/-- DELETE /api/reminders/:id.  The callback receives only err, so the
handler answers with the same success body whether or not a row existed. -/
def remindersDelete (s : Store) (i : Nat) (dbErr : Option String) : Store × Resp :=
  match dbErr with
  | some m => (s, ⟨500, .errB m⟩)
  | none => (deleteOp s i, ⟨200, .msgB "Reminder deleted"⟩)

/-- The fixed prompt of GET /api/suggestions. -/
def suggestionPrompt : String :=
  "Suggest a random self-care activity with a brief explanation why it's beneficial. Keep it concise and friendly."

/-- GET /api/suggestions.  req is the incoming request (unused by the
handler); model is the upstream generative-model oracle.  The result pairs
the list of prompts sent upstream with the HTTP response. -/
def suggestionsGet (req : String) (model : String → Except String String) :
    List String × Resp :=
  (match req with
   | _ =>
     ([suggestionPrompt],
      match model suggestionPrompt with
      | .ok t => ⟨200, .suggB t⟩
      | .error _ => ⟨500, .errB "Failed to get suggestion"⟩))

/-- ASCII lowercasing, the relevant fragment of the toLowerCase call. -/
def lowerAscii (s : String) : List Char := s.data.map Char.toLower

/-- The characters of the needle of the includes test in the chat route. -/
def dietNeedle : List Char := ['d', 'i', 'e', 't']

/-- Whether the first list is an initial segment of the second. -/
def startsWithChars : List Char → List Char → Bool
  | [], _ => true
  | _ :: _, [] => false
  | a :: as, b :: bs => a == b && startsWithChars as bs

/-- Whether the needle occurs contiguously anywhere in the haystack,
as the JavaScript includes method tests. -/
def hasSubChars (needle : List Char) : List Char → Bool
  | [] => startsWithChars needle []
  | b :: bs => startsWithChars needle (b :: bs) || hasSubChars needle bs

/-- The branch condition of the chat route:
message.toLowerCase().includes(diet). -/
def includesDiet (m : String) : Bool :=
  hasSubChars dietNeedle (lowerAscii m)

/-- The diet-plan prompt template with the message interpolated at the end. -/
def dietPromptOf (m : String) : String :=
  "Provide a detailed 7-day vegetarian diet plan with breakfast, lunch, dinner and snacks. Include calorie counts and nutritional benefits. The request was: " ++ m

/-- The self-care-assistant prompt template with the message interpolated
in the middle. -/
def selfCarePromptOf (m : String) : String :=
  "As a professional self-care assistant, provide specific advice for: " ++ m
    ++ ". Give practical steps rather than asking follow-up questions."

/-- The prompt the chat route sends upstream for a given message. -/
def chatPromptOf (m : String) : String :=
  if includesDiet m then dietPromptOf m else selfCarePromptOf m

/-- A JSON value, as far as the chat route can observe its message field. -/
inductive JsVal where
  | str : String → JsVal
  | num : Int → JsVal
  | boolV : Bool → JsVal
  | nullV : JsVal
deriving DecidableEq

/-- POST /api/chat.  message is the message field of the request body
(absent, or any JSON value).  When it is not a string, the toLowerCase call
throws inside the try block and the catch sends the generic 500 body; no
prompt is sent upstream.  Otherwise one prompt is sent, selected by
includesDiet. -/
def chatPost (message : Option JsVal) (model : String → Except String String) :
    List String × Resp :=
  match message with
  | some (.str m) =>
    ([chatPromptOf m],
     match model (chatPromptOf m) with
     | .ok t => ⟨200, .replyB t⟩
     | .error _ => ⟨500, .errB "Failed to process chat message"⟩)
  | _ => ([], ⟨500, .errB "Failed to process chat message"⟩)

/-- One API operation, carrying its request data and its failure oracles. -/
inductive Op where
  | ins (a t : Option String) (dbErr : Option String)
  | del (i : Nat) (dbErr : Option String)
  | lst (dbErr : Option String)
  | sugg (req : String) (model : String → Except String String)
  | chat (message : Option JsVal) (model : String → Except String String)

/-- The id carried by a success response of the insert handler. -/
def assignedId : Resp → Option Nat
  | ⟨_, .idB n⟩ => some n
  | _ => none

/-- Applying one operation to the store: the resulting store, and the id
assigned when the operation was a successful insert.  Only the two reminder
write routes touch the store. -/
def applyOp (s : Store) : Op → Store × Option Nat
  | .ins a t e =>
    let p := remindersPost s a t e
    (p.1, assignedId p.2)
  | .del i e => ((remindersDelete s i e).1, none)
  | .lst _ => (s, none)
  | .sugg _ _ => (s, none)
  | .chat _ _ => (s, none)

/-- Running a sequence of operations from a store, collecting the assigned
ids in order. -/
def runOps : Store → List Op → Store × List Nat
  | s, [] => (s, [])
  | s, op :: ops =>
    ((runOps (applyOp s op).1 ops).1,
      (applyOp s op).2.toList ++ (runOps (applyOp s op).1 ops).2)

/-- The store invariant: every row id is below the sequence counter, and
row ids are pairwise distinct. -/
def Inv (s : Store) : Prop :=
  (∀ r ∈ s.rows, r.id < s.nextId) ∧ (s.rows.map Reminder.id).Nodup

/-- The ordering relation between rows that listOp establishes. -/
def RowLe (a b : Reminder) : Prop := timeDesc a b = true

theorem leChars_total : ∀ (as bs : List Char),
    leChars as bs = true ∨ leChars bs as = true
  | [], _ => Or.inl rfl
  | _ :: _, [] => Or.inr rfl
  | a :: as, b :: bs => by
    simp only [leChars]
    rcases Nat.lt_trichotomy a.toNat b.toNat with h | h | h
    · left
      simp [h]
    · have hab : ¬ a.toNat < b.toNat := by omega
      have hba : ¬ b.toNat < a.toNat := by omega
      rcases leChars_total as bs with ih | ih
      · left
        simp [hab, hba, ih]
      · right
        simp [hab, hba, ih]
    · right
      simp [h]

theorem leChars_trans : ∀ (as bs cs : List Char),
    leChars as bs = true → leChars bs cs = true → leChars as cs = true
  | [], _, _, _, _ => rfl
  | _ :: _, [], _, h1, _ => by simp [leChars] at h1
  | _ :: _, _ :: _, [], _, h2 => by simp [leChars] at h2
  | a :: as, b :: bs, c :: cs, h1, h2 => by
    simp only [leChars] at h1 h2 ⊢
    by_cases hab : a.toNat < b.toNat
    · by_cases hbc : b.toNat < c.toNat
      · simp [show a.toNat < c.toNat by omega]
      · rw [if_neg hbc] at h2
        by_cases hcb : c.toNat < b.toNat
        · rw [if_pos hcb] at h2
          exact absurd h2 (by simp)
        · rw [if_neg hcb] at h2
          simp [show a.toNat < c.toNat by omega]
    · rw [if_neg hab] at h1
      by_cases hba : b.toNat < a.toNat
      · rw [if_pos hba] at h1
        exact absurd h1 (by simp)
      · rw [if_neg hba] at h1
        by_cases hbc : b.toNat < c.toNat
        · simp [show a.toNat < c.toNat by omega]
        · rw [if_neg hbc] at h2
          by_cases hcb : c.toNat < b.toNat
          · rw [if_pos hcb] at h2
            exact absurd h2 (by simp)
          · rw [if_neg hcb] at h2
            have hac : ¬ a.toNat < c.toNat := by omega
            have hca : ¬ c.toNat < a.toNat := by omega
            rw [if_neg hac, if_neg hca]
            exact leChars_trans as bs cs h1 h2

theorem timeDesc_total (a b : Reminder) : timeDesc a b = true ∨ timeDesc b a = true :=
  (leChars_total b.scheduled_time.data a.scheduled_time.data).imp id id

theorem timeDesc_trans {a b c : Reminder} (h1 : timeDesc a b = true)
    (h2 : timeDesc b c = true) : timeDesc a c = true :=
  leChars_trans c.scheduled_time.data b.scheduled_time.data a.scheduled_time.data h2 h1

theorem insertSorted_perm (r : Reminder) :
    ∀ (l : List Reminder), List.Perm (insertSorted r l) (r :: l)
  | [] => List.Perm.refl _
  | x :: xs => by
    simp only [insertSorted]
    by_cases h : timeDesc r x
    · rw [if_pos h]
    · rw [if_neg h]
      exact ((insertSorted_perm r xs).cons x).trans (List.Perm.swap r x xs)

theorem sortRows_perm : ∀ (l : List Reminder), List.Perm (sortRows l) l
  | [] => List.Perm.refl _
  | x :: xs =>
    (insertSorted_perm x (sortRows xs)).trans ((sortRows_perm xs).cons x)

theorem mem_insertSorted {y r : Reminder} {l : List Reminder} :
    y ∈ insertSorted r l ↔ y = r ∨ y ∈ l := by
  rw [(insertSorted_perm r l).mem_iff]
  simp

theorem insertSorted_pairwise (r : Reminder) :
    ∀ {l : List Reminder}, l.Pairwise RowLe → (insertSorted r l).Pairwise RowLe
  | [], _ => List.pairwise_singleton _ _
  | x :: xs, h => by
    rcases List.pairwise_cons.mp h with ⟨hx, hxs⟩
    simp only [insertSorted]
    by_cases hrx : timeDesc r x
    · rw [if_pos hrx]
      refine List.pairwise_cons.mpr ⟨?_, h⟩
      intro y hy
      rcases List.mem_cons.mp hy with rfl | hy
      · exact hrx
      · exact timeDesc_trans hrx (hx y hy)
    · rw [if_neg hrx]
      refine List.pairwise_cons.mpr ⟨?_, insertSorted_pairwise r hxs⟩
      intro y hy
      rcases mem_insertSorted.mp hy with h | hy
      · rw [h]
        exact (timeDesc_total r x).resolve_left hrx
      · exact hx y hy

theorem sortRows_pairwise : ∀ (l : List Reminder), (sortRows l).Pairwise RowLe
  | [] => List.Pairwise.nil
  | x :: xs => insertSorted_pairwise x (sortRows_pairwise xs)

theorem listOp_perm (s : Store) : List.Perm (listOp s) s.rows :=
  sortRows_perm s.rows

theorem listOp_pairwise (s : Store) : (listOp s).Pairwise RowLe :=
  sortRows_pairwise s.rows

theorem startsWithChars_iff : ∀ (n h : List Char),
    startsWithChars n h = true ↔ ∃ r, h = n ++ r
  | [], h => by simp [startsWithChars]
  | a :: as, [] => by
    simp only [startsWithChars]
    constructor
    · intro h
      simp at h
    · rintro ⟨r, hr⟩
      simp at hr
  | a :: as, b :: bs => by
    simp only [startsWithChars, Bool.and_eq_true, beq_iff_eq]
    constructor
    · rintro ⟨rfl, hs⟩
      rcases (startsWithChars_iff as bs).mp hs with ⟨r, hr⟩
      exact ⟨r, by rw [hr]; rfl⟩
    · rintro ⟨r, hr⟩
      injection hr with h1 h2
      exact ⟨h1.symm, (startsWithChars_iff as bs).mpr ⟨r, h2⟩⟩

theorem hasSubChars_iff (n : List Char) : ∀ (h : List Char),
    hasSubChars n h = true ↔ ∃ l r, h = l ++ n ++ r
  | [] => by
    simp only [hasSubChars, startsWithChars_iff]
    constructor
    · rintro ⟨r, hr⟩
      exact ⟨[], r, hr⟩
    · rintro ⟨l, r, hr⟩
      rcases List.append_eq_nil.mp hr.symm with ⟨hln, hrr⟩
      rcases List.append_eq_nil.mp hln with ⟨hl, hn⟩
      exact ⟨[], by simp [hn]⟩
  | b :: bs => by
    simp only [hasSubChars, Bool.or_eq_true, startsWithChars_iff, hasSubChars_iff n bs]
    constructor
    · rintro (⟨r, hr⟩ | ⟨l, r, hr⟩)
      · exact ⟨[], r, hr⟩
      · exact ⟨b :: l, r, by rw [hr]; rfl⟩
    · rintro ⟨l, r, hr⟩
      cases l with
      | nil => exact Or.inl ⟨r, hr⟩
      | cons x l2 =>
        injection hr with h1 h2
        exact Or.inr ⟨l2, r, h2⟩

theorem includesDiet_iff (m : String) :
    includesDiet m = true ↔ ∃ l r, lowerAscii m = l ++ dietNeedle ++ r :=
  hasSubChars_iff dietNeedle (lowerAscii m)

theorem filter_keep_of_all_ne {l : List Reminder} {i : Nat}
    (h : ∀ r ∈ l, r.id ≠ i) : l.filter (fun r => r.id != i) = l :=
  List.filter_eq_self.mpr (fun a ha => bne_iff_ne.mpr (h a ha))

theorem deleteOp_absent (s : Store) (i : Nat) (h : ∀ r ∈ s.rows, r.id ≠ i) :
    deleteOp s i = s := by
  simp only [deleteOp, filter_keep_of_all_ne h]

theorem deleteOp_idem (s : Store) (i : Nat) :
    deleteOp (deleteOp s i) i = deleteOp s i := by
  simp [deleteOp, List.filter_filter]

theorem filter_ne_eq_erase : ∀ {l : List Reminder} {r : Reminder},
    r ∈ l → (l.map Reminder.id).Nodup →
    l.filter (fun x => x.id != r.id) = l.erase r
  | [], r => by
    intro hmem _
    simp at hmem
  | a :: l, r => by
    intro hmem hnd
    rw [List.map_cons, List.nodup_cons] at hnd
    rcases hnd with ⟨hna, hnd2⟩
    by_cases hid : a.id = r.id
    · have har : a = r := by
        rcases List.mem_cons.mp hmem with h | h
        · exact h.symm
        · exact absurd (hid ▸ List.mem_map_of_mem Reminder.id h) hna
      subst har
      rw [List.erase_cons_head]
      rw [List.filter_cons_of_neg (by simp)]
      exact filter_keep_of_all_ne fun x hx heq =>
        hna (heq ▸ List.mem_map_of_mem Reminder.id hx)
    · have har : a ≠ r := fun h => hid (h ▸ rfl)
      have hmem2 : r ∈ l := by
        rcases List.mem_cons.mp hmem with h | h
        · exact absurd h.symm har
        · exact h
      have hcons : List.filter (fun x => x.id != r.id) (a :: l)
          = a :: List.filter (fun x => x.id != r.id) l := by
        rw [List.filter_cons]
        simp [bne_iff_ne.mpr hid]
      rw [hcons, List.erase_cons_tail (by simpa using har),
        filter_ne_eq_erase hmem2 hnd2]

theorem row_id_inj {s : Store} (h : Inv s) {x y : Reminder}
    (hx : x ∈ s.rows) (hy : y ∈ s.rows) (hxy : x.id = y.id) : x = y :=
  List.inj_on_of_nodup_map h.2 hx hy hxy

theorem insertOp_inv {s : Store} (h : Inv s) (a t : String) :
    Inv (insertOp s a t).1 := by
  rcases h with ⟨hlt, hnd⟩
  constructor
  · intro r hr
    simp only [insertOp, List.mem_append, List.mem_singleton] at hr
    rcases hr with hr | rfl
    · exact Nat.lt_succ_of_lt (hlt r hr)
    · exact Nat.lt_succ_self _
  · simp only [insertOp, List.map_append, List.map_cons, List.map_nil]
    refine List.nodup_append.mpr ⟨hnd, List.nodup_singleton _, ?_⟩
    intro x hx hx2
    rcases List.mem_map.mp hx with ⟨r, hr, rfl⟩
    rw [List.mem_singleton] at hx2
    exact absurd (hx2 ▸ hlt r hr) (Nat.lt_irrefl _)

theorem deleteOp_inv {s : Store} (h : Inv s) (i : Nat) : Inv (deleteOp s i) := by
  rcases h with ⟨hlt, hnd⟩
  constructor
  · intro r hr
    exact hlt r (List.mem_of_mem_filter hr)
  · exact hnd.sublist ((List.filter_sublist s.rows).map Reminder.id)

theorem applyOp_cases (s : Store) (op : Op) :
    ((applyOp s op).1 = s ∧ (applyOp s op).2 = none) ∨
    (∃ i, (applyOp s op).1 = deleteOp s i ∧ (applyOp s op).2 = none) ∨
    (∃ a t, (applyOp s op).1 = (insertOp s a t).1 ∧ (applyOp s op).2 = some s.nextId) := by
  cases op with
  | ins a t e =>
    cases e with
    | some m => exact Or.inl ⟨rfl, rfl⟩
    | none =>
      cases a with
      | none => exact Or.inl ⟨rfl, rfl⟩
      | some a2 =>
        cases t with
        | none => exact Or.inl ⟨rfl, rfl⟩
        | some t2 => exact Or.inr (Or.inr ⟨a2, t2, rfl, rfl⟩)
  | del i e =>
    cases e with
    | some m => exact Or.inl ⟨rfl, rfl⟩
    | none => exact Or.inr (Or.inl ⟨i, rfl, rfl⟩)
  | lst e => exact Or.inl ⟨rfl, rfl⟩
  | sugg q model => exact Or.inl ⟨rfl, rfl⟩
  | chat v model => exact Or.inl ⟨rfl, rfl⟩

theorem applyOp_inv {s : Store} (h : Inv s) (op : Op) : Inv (applyOp s op).1 := by
  rcases applyOp_cases s op with ⟨h1, _⟩ | ⟨i, h1, _⟩ | ⟨a, t, h1, _⟩
  · rw [h1]; exact h
  · rw [h1]; exact deleteOp_inv h i
  · rw [h1]; exact insertOp_inv h a t

theorem applyOp_nextId_le (s : Store) (op : Op) :
    s.nextId ≤ (applyOp s op).1.nextId := by
  rcases applyOp_cases s op with ⟨h1, _⟩ | ⟨i, h1, _⟩ | ⟨a, t, h1, _⟩
  · rw [h1]
  · rw [h1]; exact Nat.le_refl _
  · rw [h1]; exact Nat.le_succ _

theorem applyOp_assigned {s : Store} {op : Op} {n : Nat}
    (h : (applyOp s op).2 = some n) :
    n = s.nextId ∧ (applyOp s op).1.nextId = s.nextId + 1 := by
  rcases applyOp_cases s op with ⟨h1, h2⟩ | ⟨i, h1, h2⟩ | ⟨a, t, h1, h2⟩
  · rw [h2] at h; exact absurd h (by simp)
  · rw [h2] at h; exact absurd h (by simp)
  · rw [h2] at h
    refine ⟨(Option.some.inj h).symm, ?_⟩
    rw [h1]
    rfl

theorem runOps_spec : ∀ (ops : List Op) (s : Store), Inv s →
    Inv (runOps s ops).1 ∧ s.nextId ≤ (runOps s ops).1.nextId ∧
    List.Chain' (· < ·) (runOps s ops).2 ∧
    ∀ n ∈ (runOps s ops).2, s.nextId ≤ n ∧ n < (runOps s ops).1.nextId
  | [], s, h => ⟨h, Nat.le_refl _, List.chain'_nil, by simp [runOps]⟩
  | op :: ops, s, h => by
    rcases runOps_spec ops (applyOp s op).1 (applyOp_inv h op) with ⟨ih1, ih2, ih3, ih4⟩
    simp only [runOps]
    refine ⟨ih1, Nat.le_trans (applyOp_nextId_le s op) ih2, ?_, ?_⟩
    · cases hassign : (applyOp s op).2 with
      | none => simpa using ih3
      | some n =>
        rcases applyOp_assigned hassign with ⟨rfl, hnext⟩
        simp only [Option.toList_some, List.singleton_append]
        refine List.chain'_cons'.mpr ⟨?_, ih3⟩
        intro y hy
        have hb := (ih4 y (List.mem_of_mem_head? hy)).1
        omega
    · intro n hn
      rw [List.mem_append] at hn
      rcases hn with hn | hn
      · cases hassign : (applyOp s op).2 with
        | none => rw [hassign] at hn; simp at hn
        | some k =>
          rw [hassign] at hn
          rcases applyOp_assigned hassign with ⟨rfl, hnext⟩
          rw [Option.toList_some, List.mem_singleton] at hn
          subst hn
          have := ih2
          constructor
          · exact Nat.le_refl _
          · omega
      · have hb := ih4 n hn
        have := applyOp_nextId_le s op
        exact ⟨Nat.le_trans this hb.1, hb.2⟩

/-- C3: deleting an absent id is not an error: the handler leaves the table
unchanged and answers with the very same success body as any delete, so
callers cannot tell a delete from a no-op, and deleting twice equals
deleting once in both state and response. -/
theorem delete_absent_success_idempotent (s : Store) (i : Nat)
    (h : ∀ r ∈ s.rows, r.id ≠ i) :
    (remindersDelete s i none).1 = s ∧
    (remindersDelete s i none).2 = ⟨200, .msgB "Reminder deleted"⟩ ∧
    (∀ s2 : Store, (remindersDelete s2 i none).2 = ⟨200, .msgB "Reminder deleted"⟩) ∧
    (∀ (s2 : Store) (j : Nat),
      remindersDelete (remindersDelete s2 j none).1 j none = remindersDelete s2 j none) := by
  refine ⟨?_, rfl, fun s2 => rfl, ?_⟩
  · simp only [remindersDelete]
    exact deleteOp_absent s i h
  · intro s2 j
    simp only [remindersDelete]
    rw [deleteOp_idem]

/-- Witness for C3 at a concrete store holding one row with id 1 and the
absent id 7. -/
theorem delete_absent_success_idempotent_witness :
    (remindersDelete ⟨[⟨1, "Meditate", "2024-01-01T08:00:00", 0⟩], 2⟩ 7 none).1
      = ⟨[⟨1, "Meditate", "2024-01-01T08:00:00", 0⟩], 2⟩ :=
  (delete_absent_success_idempotent
    ⟨[⟨1, "Meditate", "2024-01-01T08:00:00", 0⟩], 2⟩ 7 (by decide)).1

/-- C4: deleting an existing id removes exactly that row: the resulting
table is the original with that one row erased, the sequence counter and
every other row (all fields) are untouched. -/
theorem delete_existing_frame (s : Store) (r : Reminder)
    (hmem : r ∈ s.rows) (hinv : Inv s) :
    (remindersDelete s r.id none).1.rows = s.rows.erase r ∧
    (remindersDelete s r.id none).1.nextId = s.nextId ∧
    r ∉ (remindersDelete s r.id none).1.rows ∧
    (∀ r2 ∈ s.rows, r2 ≠ r → r2 ∈ (remindersDelete s r.id none).1.rows) := by
  refine ⟨?_, rfl, ?_, ?_⟩
  · simp only [remindersDelete, deleteOp]
    exact filter_ne_eq_erase hmem hinv.2
  · intro hr
    have := List.mem_filter.mp hr
    simp at this
  · intro r2 hr2 hne
    simp only [remindersDelete, deleteOp]
    refine List.mem_filter.mpr ⟨hr2, ?_⟩
    refine bne_iff_ne.mpr ?_
    intro hid
    exact hne (row_id_inj hinv hr2 hmem hid)

/-- Witness for C4 at a concrete two-row store, deleting the row with id 1. -/
theorem delete_existing_frame_witness :
    (remindersDelete ⟨[⟨1, "Walk", "2024-01-01", 0⟩, ⟨2, "Rest", "2024-01-02", 0⟩], 3⟩
        1 none).1.rows
      = [⟨2, "Rest", "2024-01-02", 0⟩] :=
  (delete_existing_frame
    ⟨[⟨1, "Walk", "2024-01-01", 0⟩, ⟨2, "Rest", "2024-01-02", 0⟩], 3⟩
    ⟨1, "Walk", "2024-01-01", 0⟩ (by decide) ⟨by decide, by decide⟩).1

/-- C5: listing returns every stored row exactly once (a permutation of the
table, no pagination or filtering), ordered by scheduled_time descending,
and the success response carries exactly that ordered list. -/
theorem list_returns_all_sorted (s : Store) :
    List.Perm (listOp s) s.rows ∧
    (listOp s).Pairwise RowLe ∧
    remindersGet s none = ⟨200, .rowsB (listOp s)⟩ :=
  ⟨listOp_perm s, listOp_pairwise s, rfl⟩

/-- Witness for C5 at a concrete two-row store inserted in ascending time
order and listed in descending time order. -/
theorem list_returns_all_sorted_witness :
    remindersGet ⟨[⟨1, "Walk", "2024-01-01", 0⟩, ⟨2, "Rest", "2024-01-02", 0⟩], 3⟩ none
      = ⟨200, .rowsB (listOp ⟨[⟨1, "Walk", "2024-01-01", 0⟩, ⟨2, "Rest", "2024-01-02", 0⟩], 3⟩)⟩ :=
  (list_returns_all_sorted
    ⟨[⟨1, "Walk", "2024-01-01", 0⟩, ⟨2, "Rest", "2024-01-02", 0⟩], 3⟩).2.2

/-- C6: a successful insert answers with the id newly assigned by the
store, the stored row has completed 0 and exactly the supplied activity and
scheduled_time, and a subsequent list includes that row. -/
theorem insert_returns_id_and_listed (s : Store) (a t : String) :
    (remindersPost s (some a) (some t) none).2 = ⟨200, .idB s.nextId⟩ ∧
    (⟨s.nextId, a, t, 0⟩ : Reminder) ∈ (remindersPost s (some a) (some t) none).1.rows ∧
    (⟨s.nextId, a, t, 0⟩ : Reminder) ∈ listOp (remindersPost s (some a) (some t) none).1 := by
  refine ⟨rfl, ?_, ?_⟩
  · simp [remindersPost, insertOp]
  · rw [(listOp_perm _).mem_iff]
    simp [remindersPost, insertOp]

/-- Witness for C6: inserting into the empty initial store answers with
id 1. -/
theorem insert_returns_id_and_listed_witness :
    (remindersPost ⟨[], 1⟩ (some "Meditate") (some "2024-01-01T08:00:00") none).2
      = ⟨200, .idB 1⟩ :=
  (insert_returns_id_and_listed ⟨[], 1⟩ "Meditate" "2024-01-01T08:00:00").1

/-- C7: across any sequence of operations from the initial store, the ids
assigned by inserts are strictly increasing (hence unique and never reused,
even after deletes), the ids of the stored rows stay pairwise distinct, and
an insert missing activity or scheduled_time is rejected by the NOT NULL
constraint without adding a row. -/
theorem ids_unique_monotone_never_reused (ops : List Op) :
    (runOps initialStore ops).2.Pairwise (· < ·) ∧
    ((runOps initialStore ops).1.rows.map Reminder.id).Nodup ∧
    (∀ (s : Store) (t e : Option String), (remindersPost s none t e).1 = s) ∧
    (∀ (s : Store) (a e : Option String), (remindersPost s a none e).1 = s) := by
  have hinv : Inv initialStore := ⟨by simp [initialStore], by simp [initialStore]⟩
  rcases runOps_spec ops initialStore hinv with ⟨h1, _, h3, _⟩
  refine ⟨?_, h1.2, ?_, ?_⟩
  · exact List.chain'_iff_pairwise.mp h3
  · intro s t e
    cases e with
    | some m => rfl
    | none => cases t <;> rfl
  · intro s a e
    cases e with
    | some m => rfl
    | none => cases a <;> rfl

/-- Witness for C7 at a concrete run that inserts, deletes the row, and
inserts again. -/
theorem ids_unique_monotone_never_reused_witness :
    (runOps initialStore
      [.ins (some "a") (some "t1") none, .del 1 none,
        .ins (some "b") (some "t2") none]).2.Pairwise (· < ·) :=
  (ids_unique_monotone_never_reused
    [.ins (some "a") (some "t1") none, .del 1 none,
      .ins (some "b") (some "t2") none]).1

/-- C9: no reachable operation mutates an existing row: whenever a row id
survives an operation, the surviving row is equal, field for field, to the
original row; in particular completed is never changed. -/
theorem no_row_mutation (s : Store) (op : Op) (h : Inv s) :
    ∀ r ∈ s.rows, ∀ r2 ∈ (applyOp s op).1.rows, r2.id = r.id → r2 = r := by
  intro r hr r2 hr2 hid
  rcases applyOp_cases s op with ⟨h1, _⟩ | ⟨i, h1, _⟩ | ⟨a, t, h1, _⟩
  · rw [h1] at hr2
    exact row_id_inj h hr2 hr hid
  · rw [h1] at hr2
    exact row_id_inj h (List.mem_of_mem_filter hr2) hr hid
  · rw [h1] at hr2
    simp only [insertOp, List.mem_append, List.mem_singleton] at hr2
    rcases hr2 with hr2 | rfl
    · exact row_id_inj h hr2 hr hid
    · exact absurd (hid ▸ h.1 r hr) (by simp)

/-- C1: the chat prompt is selected by exactly one rule: the diet template
is chosen precisely when the lowercased message contains the substring
diet anywhere, the self-care template otherwise; either way the original
message is embedded verbatim, and the two templates never coincide, so
exactly one is selected per call. -/
theorem chat_prompt_selection (m : String) :
    (includesDiet m = true ↔ ∃ l r, lowerAscii m = l ++ dietNeedle ++ r) ∧
    (includesDiet m = true → chatPromptOf m = dietPromptOf m) ∧
    (includesDiet m = false → chatPromptOf m = selfCarePromptOf m) ∧
    (∃ l r, chatPromptOf m = l ++ m ++ r) ∧
    dietPromptOf m ≠ selfCarePromptOf m := by
  refine ⟨includesDiet_iff m, ?_, ?_, ?_, ?_⟩
  · intro h
    simp [chatPromptOf, h]
  · intro h
    simp [chatPromptOf, h]
  · by_cases h : includesDiet m
    · refine ⟨"Provide a detailed 7-day vegetarian diet plan with breakfast, lunch, dinner and snacks. Include calorie counts and nutritional benefits. The request was: ", "", ?_⟩
      simp [chatPromptOf, h, dietPromptOf]
    · refine ⟨"As a professional self-care assistant, provide specific advice for: ",
        ". Give practical steps rather than asking follow-up questions.", ?_⟩
      simp [chatPromptOf, h, selfCarePromptOf]
  · intro hcontra
    have hd : (dietPromptOf m).data.head? = some 'P' := rfl
    rw [hcontra] at hd
    have hs : (selfCarePromptOf m).data.head? = some 'A' := rfl
    rw [hs] at hd
    exact absurd hd (by decide)

/-- Witness for C1 at a concrete message containing DIET in capitals. -/
theorem chat_prompt_selection_witness :
    chatPromptOf "I need a DIET plan" = dietPromptOf "I need a DIET plan" :=
  (chat_prompt_selection "I need a DIET plan").2.1 (by decide)

/-- C8: the suggestions route sends exactly one upstream call with the
fixed hardcoded prompt, independent of every request input, and on upstream
success answers 200 with the raw model text under the suggestion field. -/
theorem suggestion_fixed_prompt (model : String → Except String String)
    (q1 q2 : String) :
    (suggestionsGet q1 model).1 = [suggestionPrompt] ∧
    suggestionsGet q1 model = suggestionsGet q2 model ∧
    ∀ t, model suggestionPrompt = .ok t →
      (suggestionsGet q1 model).2 = ⟨200, .suggB t⟩ := by
  refine ⟨rfl, rfl, ?_⟩
  intro t h
  simp [suggestionsGet, h]

/-- Witness for C8 at a constant model and two distinct request inputs. -/
theorem suggestion_fixed_prompt_witness :
    (suggestionsGet "a" (fun _ => .ok "Take a short walk")).1 = [suggestionPrompt] :=
  (suggestion_fixed_prompt (fun _ => .ok "Take a short walk") "a" "b").1

/-- C10: a chat request whose message field is absent or not a string does
not crash the process: the toLowerCase exception is caught, the response is
the generic 500 chat error body, no upstream call is made, and the store is
untouched. -/
theorem chat_nonstring_message_caught (v : Option JsVal)
    (model : String → Except String String)
    (h : ∀ msg : String, v ≠ some (.str msg)) :
    chatPost v model = ([], ⟨500, .errB "Failed to process chat message"⟩) ∧
    ∀ s : Store, (applyOp s (.chat v model)).1 = s := by
  refine ⟨?_, fun s => rfl⟩
  cases v with
  | none => rfl
  | some jv =>
    cases jv with
    | str msg => exact absurd rfl (h msg)
    | num n => rfl
    | boolV b => rfl
    | nullV => rfl

/-- Witness for C10 at a numeric message value and a constant model. -/
theorem chat_nonstring_message_caught_witness :
    chatPost (some (.num 7)) (fun _ => .ok "hello")
      = ([], ⟨500, .errB "Failed to process chat message"⟩) :=
  (chat_nonstring_message_caught (some (.num 7)) (fun _ => .ok "hello")
    (by intro msg hc; simp at hc)).1

/-- C2 counterexample: the reminders list handler copies the underlying
storage error message into the client-visible error body, so the response
varies with the upstream detail and the detail is sent to the client,
contradicting the claim that every handler answers with a short generic
message only. -/
theorem error_detail_leaked_counterexample :
    (remindersGet ⟨[], 1⟩ (some "SQLITE_IOERR: disk I/O error")).body
        = .errB "SQLITE_IOERR: disk I/O error" ∧
    remindersGet ⟨[], 1⟩ (some "SQLITE_IOERR: disk I/O error")
        ≠ remindersGet ⟨[], 1⟩ (some "SQLITE_BUSY: database is locked") := by
  constructor
  · rfl
  · decide

/-- C2 amended: every failing operation yields a flat 500; the two AI-proxy
routes answer with fixed generic bodies hiding the upstream detail, but the
three reminder-store routes place the storage error message itself in the
error body. -/
theorem error_responses_amended (s : Store) (m q msg e1 e2 : String)
    (model : String → Except String String)
    (hs : model suggestionPrompt = .error e1)
    (hc : model (chatPromptOf msg) = .error e2) :
    (suggestionsGet q model).2 = ⟨500, .errB "Failed to get suggestion"⟩ ∧
    (chatPost (some (.str msg)) model).2 = ⟨500, .errB "Failed to process chat message"⟩ ∧
    remindersGet s (some m) = ⟨500, .errB m⟩ ∧
    (∀ a t, (remindersPost s a t (some m)).2 = ⟨500, .errB m⟩) ∧
    (∀ i, (remindersDelete s i (some m)).2 = ⟨500, .errB m⟩) := by
  refine ⟨?_, ?_, rfl, fun a t => rfl, fun i => rfl⟩
  · simp [suggestionsGet, hs]
  · simp [chatPost, hc]

/-- Witness for the amended C2 at a concrete store and a constant failing
model. -/
theorem error_responses_amended_witness :
    (suggestionsGet "" (fun _ => .error "quota exceeded")).2
      = ⟨500, .errB "Failed to get suggestion"⟩ :=
  (error_responses_amended ⟨[], 1⟩ "disk full" "" "hi" "quota exceeded" "quota exceeded"
    (fun _ => .error "quota exceeded") rfl rfl).1

/-- Witness for C9: a delete on a concrete two-row store leaves the
surviving row with id 2 identical. -/
theorem no_row_mutation_witness :
    (⟨2, "Rest", "2024-01-02", 0⟩ : Reminder) = ⟨2, "Rest", "2024-01-02", 0⟩ :=
  no_row_mutation ⟨[⟨1, "Walk", "2024-01-01", 0⟩, ⟨2, "Rest", "2024-01-02", 0⟩], 3⟩
    (.del 1 none) ⟨by decide, by decide⟩
    ⟨2, "Rest", "2024-01-02", 0⟩ (by decide)
    ⟨2, "Rest", "2024-01-02", 0⟩ (by decide) rfl

end SelfCareApp
